import Mathlib

/-!
Verification of the intent-classification + metric-computation core of the
FinnAI CFO copilot (src/agent/agent.py and src/agent/tools.py), shallowly
embedded in Lean.  Tables (pandas DataFrames) are modelled as lists of
records with `Option`-valued cells (a `none` cell is a NaN/null entry);
decimal amounts are modelled as exact rationals; matplotlib figures are
modelled as an opaque unit value (no claim observes chart contents);
operations that can raise a pandas exception return `Except String`.
Python `str.lower` is modelled with ASCII lowering (`Char.toLower`), and
the regex digit class with ASCII digits.
-/

namespace CFO

/-! ## String helpers (substring containment as in Python `in`, `str.startswith`) -/

/-- ASCII lowering of a character sequence, modelling Python `str.lower()`. -/
def lowerSeq (s : List Char) : List Char := s.map Char.toLower

/-- Boolean test that `p` is a leading segment of `s` (character-exact). -/
def isPrefixB : List Char → List Char → Bool
  | [], _ => true
  | _ :: _, [] => false
  | p :: ps, c :: cs => (p == c) && isPrefixB ps cs

/-- Boolean substring containment, modelling Python `needle in hay`. -/
def containsB (needle : List Char) : List Char → Bool
  | [] => isPrefixB needle []
  | c :: t => isPrefixB needle (c :: t) || containsB needle t

/-- Python `s.startswith(p)`. -/
def strStartsWith (s p : String) : Bool := isPrefixB p.data s.data

/-! ## Intent classifier (src/agent/agent.py, `classify_intent`, lines 31-46) -/

/-- Embeds `classify_intent`: lowercase the question, then run the ordered
`if/elif` keyword chain. -/
def classify_intent (question : String) : String :=
  let q := lowerSeq question.data
  if containsB "revenue".data q && containsB "budget".data q then "revenue_vs_budget"
  else if containsB "gross margin".data q then "gross_margin_trend"
  else if containsB "opex".data q then "opex_breakdown"
  else if containsB "ebitda".data q && !containsB "budget".data q then "ebitda_trend"
  else if containsB "ebitda".data q && containsB "budget".data q then "ebitda_vs_budget"
  else if containsB "cash runway".data q then "cash_runway"
  else "unknown"

/-- The ordered rule list of spec section 4.3, written as explicit
(predicate, intent) pairs evaluated top-to-bottom, first match winning. -/
def intentRules : List ((List Char → Bool) × String) :=
  [(fun q => containsB "revenue".data q && containsB "budget".data q, "revenue_vs_budget"),
   (fun q => containsB "gross margin".data q, "gross_margin_trend"),
   (fun q => containsB "opex".data q, "opex_breakdown"),
   (fun q => containsB "ebitda".data q && !containsB "budget".data q, "ebitda_trend"),
   (fun q => containsB "ebitda".data q && containsB "budget".data q, "ebitda_vs_budget"),
   (fun q => containsB "cash runway".data q, "cash_runway")]

/-- Spec-side classifier: evaluate `intentRules` in order on the lowercased
question; fall back to "unknown". -/
def classify_intent_spec (question : String) : String :=
  match intentRules.find? (fun r => r.1 (lowerSeq question.data)) with
  | some r => r.2
  | none => "unknown"

/-- The seven intent tags of the data model (spec section 3). -/
def intentTags : List String :=
  ["revenue_vs_budget", "gross_margin_trend", "opex_breakdown", "ebitda_trend",
   "ebitda_vs_budget", "cash_runway", "unknown"]

/-- C1: for every question string the classifier agrees with the ordered
rule list of spec section 4.3 (first matching rule wins), always returns one
of the seven intent tags, and a question containing both "ebitda" and
"budget" that matches no earlier rule is classified `ebitda_vs_budget`.
Determinism is immediate since `classify_intent` is a function of the
question text alone. -/
theorem C1_classify_intent_rules (question : String) :
    classify_intent question = classify_intent_spec question ∧
    classify_intent question ∈ intentTags ∧
    (containsB "ebitda".data (lowerSeq question.data) = true →
     containsB "budget".data (lowerSeq question.data) = true →
     containsB "revenue".data (lowerSeq question.data) = false →
     containsB "gross margin".data (lowerSeq question.data) = false →
     containsB "opex".data (lowerSeq question.data) = false →
     classify_intent question = "ebitda_vs_budget") := by
  unfold classify_intent classify_intent_spec intentRules intentTags
  cases h1 : containsB "revenue".data (lowerSeq question.data) <;>
  cases h2 : containsB "budget".data (lowerSeq question.data) <;>
  cases h3 : containsB "gross margin".data (lowerSeq question.data) <;>
  cases h4 : containsB "opex".data (lowerSeq question.data) <;>
  cases h5 : containsB "ebitda".data (lowerSeq question.data) <;>
  cases h6 : containsB "cash runway".data (lowerSeq question.data) <;>
    simp [List.find?, h1, h2, h3, h4, h5, h6]

/-- Witness for C1: "EBITDA vs Budget" contains "ebitda" and "budget" and no
earlier-rule keyword, and is classified `ebitda_vs_budget`. -/
theorem C1_classify_intent_rules_witness :
    classify_intent "EBITDA vs Budget" = "ebitda_vs_budget" :=
  (C1_classify_intent_rules "EBITDA vs Budget").2.2 rfl rfl rfl rfl rfl

/-! ## Exact decimal numbers.

Monetary amounts and FX rates are decimal numbers in the source; they are
modelled as exact fractions.  A dedicated unnormalized fraction type is used
(numerator/denominator over ℤ, arithmetic without gcd-normalization) so that
every operation reduces inside the kernel; the value denoted is `num / den`.
All fractions built by the embedding keep a positive denominator. -/

structure Q where
  num : Int
  den : Int
deriving DecidableEq, Repr

namespace Q

def add (a b : Q) : Q := ⟨a.num * b.den + b.num * a.den, a.den * b.den⟩

def sub (a b : Q) : Q := ⟨a.num * b.den - b.num * a.den, a.den * b.den⟩

def mul (a b : Q) : Q := ⟨a.num * b.num, a.den * b.den⟩

/-- Reciprocal, sign moved to the numerator so a positive denominator is
preserved. -/
def inv (b : Q) : Q := if b.num < 0 then ⟨-b.den, -b.num⟩ else ⟨b.den, b.num⟩

def div (a b : Q) : Q := mul a (inv b)

instance : Add Q := ⟨add⟩
instance : Sub Q := ⟨sub⟩
instance : Mul Q := ⟨mul⟩
instance : Div Q := ⟨div⟩
instance (n : Nat) : OfNat Q n := ⟨⟨n, 1⟩⟩
instance : Neg Q := ⟨fun a => ⟨-a.num, a.den⟩⟩

instance : LT Q := ⟨fun a b => a.num * b.den < b.num * a.den⟩
instance : LE Q := ⟨fun a b => a.num * b.den ≤ b.num * a.den⟩

instance (a b : Q) : Decidable (a < b) :=
  inferInstanceAs (Decidable (a.num * b.den < b.num * a.den))

instance (a b : Q) : Decidable (a ≤ b) :=
  inferInstanceAs (Decidable (a.num * b.den ≤ b.num * a.den))

/-- Integer floor of the denoted value (denominator positive). -/
def floor (q : Q) : Int := q.num.fdiv q.den

/-- Absolute value. -/
def qabs (q : Q) : Q := ⟨(q.num.natAbs : Int), (q.den.natAbs : Int)⟩

/-- Fraction of an integer. -/
def ofInt (n : Int) : Q := ⟨n, 1⟩

/-- Left fold summation, as Python `sum` / pandas `Series.sum` (empty sum
is 0). -/
def qsum (l : List Q) : Q := l.foldl add 0

end Q

/-! ## Data model (spec section 3; rows of the pandas tables of tools.py).
A `none` field models a NaN/missing cell. -/

/-- A financial record: row of the actuals/budget tables. -/
structure Row where
  month : Option String
  entity : Option String
  account_category : Option String
  amount : Option Q
  currency : Option String
deriving DecidableEq, Repr

/-- An FX rate record. -/
structure FxRow where
  month : Option String
  currency : Option String
  rate_to_usd : Option Q
deriving DecidableEq, Repr

/-- A cash record. -/
structure CashRow where
  month : Option String
  entity : Option String
  cash_usd : Option Q
deriving DecidableEq, Repr

/-- A row of the merged frame produced by `convert_to_usd`: the original
record columns joined with the FX rate and the computed USD amount. -/
structure UsdRow where
  month : Option String
  entity : Option String
  account_category : Option String
  amount : Option Q
  currency : Option String
  rate_to_usd : Option Q
  amount_usd : Option Q
deriving DecidableEq, Repr

/-! ## Currency normalizer (src/agent/tools.py, `convert_to_usd`, lines 8-35) -/

/-- `df.dropna(subset=["month", "currency", "amount"])` keeps exactly the
rows where these three cells are present. -/
def rowComplete (r : Row) : Bool := r.month.isSome && r.currency.isSome && r.amount.isSome

/-- `fx.dropna(subset=["month", "currency", "rate_to_usd"])` row predicate. -/
def fxComplete (f : FxRow) : Bool := f.month.isSome && f.currency.isSome && f.rate_to_usd.isSome

/-- Join key equality on (month, currency), as used by
`merge(on=["month", "currency"])`. -/
def fxKey (m c : Option String) (f : FxRow) : Bool := f.month == m && f.currency == c

/-- `drop_duplicates(subset=["month", "currency"], keep="first")`: keep a row
iff its (month, currency) key was not seen earlier in input order. -/
def dedupFxGo (seen : List (Option String × Option String)) : List FxRow → List FxRow
  | [] => []
  | f :: t =>
    if (f.month, f.currency) ∈ seen then dedupFxGo seen t
    else f :: dedupFxGo ((f.month, f.currency) :: seen) t

/-- First-occurrence deduplication of FX rows on (month, currency). -/
def dedupFx (l : List FxRow) : List FxRow := dedupFxGo [] l

/-- One row of the left-join `clean_df.merge(clean_fx, on=["month","currency"],
how="left")`: the FX columns of the first matching FX row, or NaN. -/
def mergeRow (cfx : List FxRow) (r : Row) : UsdRow :=
  let hit := cfx.find? (fxKey r.month r.currency)
  { month := r.month, entity := r.entity, account_category := r.account_category,
    amount := r.amount, currency := r.currency,
    rate_to_usd := hit.bind FxRow.rate_to_usd, amount_usd := none }

/-- `merged["amount_usd"] = merged["amount"] * merged["rate_to_usd"]` on one
row (NaN-propagating multiplication). -/
def setAmountUsd (u : UsdRow) : UsdRow :=
  { u with amount_usd := u.amount.bind fun a => u.rate_to_usd.map fun t => a * t }

/-- Embeds `convert_to_usd`: clean both tables (`dropna`), deduplicate FX
keys keeping the first occurrence, left-join (`merge`), drop rows with no FX
match (`dropna(subset=["rate_to_usd"])`), and compute `amount_usd`. -/
def convert_to_usd (df : List Row) (fx : List FxRow) : List UsdRow :=
  ((((df.filter rowComplete).map
      (mergeRow (dedupFx (fx.filter fxComplete)))).filter
        fun u => u.rate_to_usd.isSome).map setAmountUsd)

/-- Spec-side description of the normalizer (spec section 4.1): a record
survives iff its month, currency and amount are present and some complete FX
row matches its (month, currency) exactly, the first such FX row in input
order being used; the survivor carries `amount_usd = amount * rate_to_usd`. -/
def specRow (fx : List FxRow) (r : Row) : Option UsdRow :=
  r.month.bind fun m => r.currency.bind fun c => r.amount.bind fun a =>
    ((fx.filter fxComplete).find? (fxKey (some m) (some c))).bind fun f =>
      f.rate_to_usd.map fun rate =>
        { month := some m, entity := r.entity,
          account_category := r.account_category,
          amount := some a, currency := some c,
          rate_to_usd := some rate, amount_usd := some (a * rate) }

/-- Spec-side normalizer. -/
def convert_to_usd_spec (df : List Row) (fx : List FxRow) : List UsdRow :=
  df.filterMap (specRow fx)

/-- Looking a key up in the first-occurrence deduplication of a list finds
the same row as looking it up in the list itself, as long as the key has not
been seen yet. -/
theorem dedupFxGo_find? (m c : Option String) :
    ∀ (l : List FxRow) (seen : List (Option String × Option String)),
      (m, c) ∉ seen →
      (dedupFxGo seen l).find? (fxKey m c) = l.find? (fxKey m c) := by
  intro l
  induction l with
  | nil => intro seen _; rfl
  | cons f t ih =>
    intro seen hseen
    by_cases hk : (f.month, f.currency) ∈ seen
    · have hkey : fxKey m c f = false := by
        by_contra h
        have h' : fxKey m c f = true := by revert h; cases fxKey m c f <;> simp
        have h1 : f.month = m := by
          have := ((Bool.and_eq_true _ _).mp h').1
          simpa [fxKey] using this
        have h2 : f.currency = c := by
          have := ((Bool.and_eq_true _ _).mp h').2
          simpa [fxKey] using this
        rw [h1, h2] at hk
        exact hseen hk
      simp only [dedupFxGo, if_pos hk]
      rw [ih seen hseen, List.find?_cons_of_neg _ (by simp [hkey])]
    · simp only [dedupFxGo, if_neg hk]
      by_cases hkey : fxKey m c f = true
      · rw [List.find?_cons_of_pos _ hkey, List.find?_cons_of_pos _ hkey]
      · have hkey' : fxKey m c f = false := by revert hkey; cases fxKey m c f <;> simp
        rw [List.find?_cons_of_neg _ (by simp [hkey']), List.find?_cons_of_neg _ (by simp [hkey'])]
        apply ih
        intro hmem
        rcases List.mem_cons.mp hmem with heq | hmem'
        · injection heq with h1 h2
          apply hkey
          simp [fxKey, ← h1, ← h2]
        · exact hseen hmem'

/-- Key lookup ignores first-occurrence deduplication. -/
theorem dedupFx_find? (m c : Option String) (l : List FxRow) :
    (dedupFx l).find? (fxKey m c) = l.find? (fxKey m c) :=
  dedupFxGo_find? m c l [] (by simp)

/-- C2: the normalizer returns exactly the completely-keyed records that
match a complete FX row on exact (month, currency) equality — the first
matching FX row in input order (duplicates ignored) — each extended with
`amount_usd = amount * rate_to_usd`; all other records are dropped, and no
returned record has a null `amount_usd`. -/
theorem C2_convert_to_usd_spec_eq (df : List Row) (fx : List FxRow) :
    convert_to_usd df fx = convert_to_usd_spec df fx ∧
    ∀ u ∈ convert_to_usd df fx, u.amount_usd.isSome = true := by
  have main : convert_to_usd df fx = convert_to_usd_spec df fx := by
    unfold convert_to_usd convert_to_usd_spec
    induction df with
    | nil => rfl
    | cons r t ih =>
      by_cases hr : rowComplete r = true
      · obtain ⟨m, hm⟩ := Option.isSome_iff_exists.mp ((Bool.and_eq_true _ _).mp
          ((Bool.and_eq_true _ _).mp hr).1).1
        obtain ⟨c, hc⟩ := Option.isSome_iff_exists.mp ((Bool.and_eq_true _ _).mp
          ((Bool.and_eq_true _ _).mp hr).1).2
        obtain ⟨a, ha⟩ := Option.isSome_iff_exists.mp ((Bool.and_eq_true _ _).mp hr).2
        rw [List.filter_cons_of_pos hr, List.map_cons, List.filterMap_cons]
        cases hhit : (fx.filter fxComplete).find? (fxKey r.month r.currency) with
        | none =>
          have hrate : (mergeRow (dedupFx (fx.filter fxComplete)) r).rate_to_usd = none := by
            simp [mergeRow, dedupFx_find?, hhit]
          rw [List.filter_cons_of_neg (by simp [hrate]), ih]
          have h0 : specRow fx r = none := by
            rw [hm, hc] at hhit
            simp only [specRow, hm, hc, ha, Option.some_bind, hhit, Option.none_bind]
          rw [h0]
        | some f =>
          have hfmem : f ∈ fx.filter fxComplete := List.mem_of_find?_eq_some hhit
          have hfc : fxComplete f = true := (List.mem_filter.mp hfmem).2
          obtain ⟨rate, hrate⟩ := Option.isSome_iff_exists.mp
            ((Bool.and_eq_true _ _).mp hfc).2
          have hmr : (mergeRow (dedupFx (fx.filter fxComplete)) r).rate_to_usd = some rate := by
            simp [mergeRow, dedupFx_find?, hhit, hrate]
          rw [List.filter_cons_of_pos (by simp [hmr]), List.map_cons, ih]
          have h0 : specRow fx r = some (setAmountUsd (mergeRow (dedupFx (fx.filter fxComplete)) r)) := by
            rw [hm, hc] at hhit
            simp only [specRow, setAmountUsd, mergeRow, dedupFx_find?, hm, hc, ha,
              Option.some_bind, hhit, hrate, Option.map_some']
          rw [h0]
      · rw [List.filter_cons_of_neg (by simpa using hr), ih, List.filterMap_cons]
        have h0 : specRow fx r = none := by
          unfold rowComplete at hr
          cases hm : r.month <;> cases hc : r.currency <;> cases ha : r.amount <;>
            simp [hm, hc, ha] at hr ⊢ <;> simp [specRow, hm, hc, ha]
        rw [h0]
  refine ⟨main, ?_⟩
  intro u hu
  rw [main] at hu
  obtain ⟨r, -, hr⟩ := List.mem_filterMap.mp hu
  simp only [specRow, Option.bind_eq_some, Option.map_eq_some'] at hr
  obtain ⟨m, hm, c, hc, a, ha, f, hf, rate, hrate, hu'⟩ := hr
  rw [← hu']
  rfl

/-- Witness for C2: a concrete one-row table with a matching FX rate is
converted, and the produced row has `amount_usd = some 10`. -/
theorem C2_convert_to_usd_spec_eq_witness :
    (convert_to_usd [⟨some "2024-01", some "P", some "Revenue", some 5, some "USD"⟩]
        [⟨some "2024-01", some "USD", some 2⟩] =
      convert_to_usd_spec [⟨some "2024-01", some "P", some "Revenue", some 5, some "USD"⟩]
        [⟨some "2024-01", some "USD", some 2⟩]) ∧
    (⟨some "2024-01", some "P", some "Revenue", some 5, some "USD", some 2,
        some 10⟩ : UsdRow).amount_usd.isSome = true :=
  ⟨(C2_convert_to_usd_spec_eq _ _).1,
   (C2_convert_to_usd_spec_eq
      [⟨some "2024-01", some "P", some "Revenue", some 5, some "USD"⟩]
      [⟨some "2024-01", some "USD", some 2⟩]).2 _ (by decide)⟩

/-! ## Python number formatting.

`f"{x:,.0f}"` rounds half-to-even to an integer and inserts thousands
separators; `f"{x:.1f}"` rounds half-to-even to one decimal place;
`f"{float('inf'):.1f}"` prints "inf".  The sign of the value is printed
before the rounded magnitude (so -0.4 prints as "-0", as in Python). -/

/-- Round half-to-even to the nearest integer. -/
def roundHalfEven (q : Q) : Int :=
  let f := q.floor
  let r := q - Q.ofInt f
  if r < (⟨1, 2⟩ : Q) then f
  else if (⟨1, 2⟩ : Q) < r then f + 1
  else if f % 2 = 0 then f else f + 1

/-- Insert a comma after every three characters of a reversed digit list. -/
def groupRev : List Char → List Char
  | a :: b :: c :: d :: rest => a :: b :: c :: ',' :: groupRev (d :: rest)
  | l => l

/-- Decimal digits of `n` with thousands separators. -/
def fmtNat (n : Nat) : String := String.mk ((groupRev (toString n).data.reverse).reverse)

/-- Python `f"{q:,.0f}"`. -/
def fmtMoney (q : Q) : String :=
  (if q < 0 then "-" else "") ++ fmtNat (roundHalfEven (Q.qabs q)).toNat

/-- Python `f"{q:.1f}"`. -/
def fmt1f (q : Q) : String :=
  let n := (roundHalfEven (Q.qabs q * 10)).toNat
  (if q < 0 then "-" else "") ++ toString (n / 10) ++ "." ++ toString (n % 10)

/-! ## Metric engine (src/agent/tools.py).

Each metric returns the user-facing text; chart construction (matplotlib) is
not observable by any claim and is modelled by the opaque `Fig` value.
pandas behaviours embedded here: a sum over an empty or NaN-skipping slice
is 0; `groupby`/`pivot_table` key sets are the sorted distinct non-null
values; column access on a frame without that column raises `KeyError`;
boolean-mask indexing with a mask containing NaN (from
`.str.startswith` on a null category) raises `ValueError`. -/

/-- Chart placeholder. -/
abbrev Fig := Unit

/-- pandas `Series.sum()` over the `amount_usd` column: missing values are
skipped (`skipna`), the empty sum is 0. -/
def sumUsd (l : List UsdRow) : Q := Q.qsum (l.map fun u => u.amount_usd.getD 0)

/-- Sorted insertion keeping one copy of each key. -/
def insUniq (s : String) : List String → List String
  | [] => [s]
  | t :: ts => if s < t then s :: t :: ts else if s = t then t :: ts else t :: insUniq s ts

/-- Sorted distinct values of a key column, as produced by pandas
`groupby` / `pivot_table`. -/
def sortedDedup (l : List String) : List String := l.foldr insUniq []

/-- Row filter of `get_revenue_vs_budget`: month, entity and the reserved
category "Revenue" must all match. -/
def revMatch (month entity : String) (u : UsdRow) : Bool :=
  u.month == some month && u.entity == some entity && u.account_category == some "Revenue"

/-- Text template of `get_revenue_vs_budget`. -/
def revVsBudgetText (month entity : String) (a b : Q) : String :=
  "Revenue in " ++ month ++ " for " ++ entity ++ ": Actual $" ++ fmtMoney a ++
    " vs Budget $" ++ fmtMoney b

/-- Embeds `get_revenue_vs_budget` (tools.py lines 39-80): convert both
tables to USD, sum the Revenue rows of the requested month and entity in
each, and render the comparison text (this function cannot raise). -/
def get_revenue_vs_budget (month entity : String) (actuals budget : List Row)
    (fx : List FxRow) : String × Fig :=
  (revVsBudgetText month entity
    (sumUsd ((convert_to_usd actuals fx).filter (revMatch month entity)))
    (sumUsd ((convert_to_usd budget fx).filter (revMatch month entity))), ())

/-- `df["account_category"].str.startswith("Opex")` on one row, with NaN for
a null category treated as False (the combined `&` mask of
`get_opex_breakdown1` fills NaN with False). -/
def isOpexCat (u : UsdRow) : Bool :=
  match u.account_category with
  | some s => strStartsWith s "Opex"
  | none => false

/-- The column set of `pivot_table(index="month", columns="account_category")`:
sorted distinct non-null categories of the slice. -/
def catsOf (df : List UsdRow) : List String :=
  sortedDedup (df.filterMap fun u => u.account_category)

/-- Embeds `get_gross_margin_trend1` (tools.py lines 84-126): filter to the
entity, pivot by month/category, then read the "Revenue" and "COGS" columns
— which raises `KeyError` when the column is absent from the pivot. -/
def get_gross_margin_trend1 (actuals : List Row) (fx : List FxRow)
    (entity : String) : Except String (String × Fig) :=
  let df := (convert_to_usd actuals fx).filter fun u => u.entity == some entity
  let cats := catsOf df
  if !(cats.contains "Revenue") then Except.error "KeyError: Revenue"
  else if !(cats.contains "COGS") then Except.error "KeyError: COGS"
  else Except.ok ("Gross Margin % Trend for " ++ entity ++ ":", ())

/-- Embeds `get_ebitda_trend` (tools.py lines 173-209): same pivot; the
Opex column sum tolerates zero matching columns, but reading "Revenue" or
"COGS" raises `KeyError` when absent. -/
def get_ebitda_trend (actuals : List Row) (fx : List FxRow)
    (entity : String) : Except String (String × Fig) :=
  let df := (convert_to_usd actuals fx).filter fun u => u.entity == some entity
  let cats := catsOf df
  if !(cats.contains "Revenue") then Except.error "KeyError: Revenue"
  else if !(cats.contains "COGS") then Except.error "KeyError: COGS"
  else Except.ok ("EBITDA trend for " ++ entity ++ " over time.", ())

/-- Embeds `get_opex_breakdown1` (tools.py lines 129-170): filter the
converted rows by month, entity and the "Opex" category prefix, group by
exact category name, and render one line per category. -/
def get_opex_breakdown1 (month entity : String) (actuals : List Row)
    (fx : List FxRow) : Except String (String × Fig) :=
  let df := convert_to_usd actuals fx
  let opex_df := df.filter fun u =>
    u.month == some month && u.entity == some entity && isOpexCat u
  let cats := sortedDedup (opex_df.filterMap fun u => u.account_category)
  let lines := cats.map fun cName =>
    cName ++ ": $" ++
      fmtMoney (sumUsd (opex_df.filter fun u => u.account_category == some cName))
  Except.ok
    (String.intercalate "\n"
      (("Opex breakdown for " ++ month ++ " (" ++ entity ++ "):") :: lines), ())

/-- The inner `compute_ebitda` of `get_ebitda_vs_budget`: Revenue − COGS −
Opex, where the direct boolean mask `df[df["account_category"].str.startswith
("Opex")]` raises `ValueError` if the slice contains a null category. -/
def computeEbitda (df : List UsdRow) : Except String Q :=
  if df.any fun u => u.account_category.isNone then
    Except.error "ValueError: cannot mask with NA"
  else
    Except.ok (sumUsd (df.filter fun u => u.account_category == some "Revenue") -
               sumUsd (df.filter fun u => u.account_category == some "COGS") -
               sumUsd (df.filter isOpexCat))

/-- Text template of `get_ebitda_vs_budget`. -/
def ebitdaVsBudgetText (month entity : String) (a b : Q) : String :=
  "EBITDA in " ++ month ++ " for " ++ entity ++ ": Actual $" ++ fmtMoney a ++
    " vs Budget $" ++ fmtMoney b

/-- Embeds `get_ebitda_vs_budget` (tools.py lines 212-243). -/
def get_ebitda_vs_budget (month entity : String) (actuals budget : List Row)
    (fx : List FxRow) : Except String (String × Fig) :=
  let a := (convert_to_usd actuals fx).filter fun u =>
    u.month == some month && u.entity == some entity
  let b := (convert_to_usd budget fx).filter fun u =>
    u.month == some month && u.entity == some entity
  match computeEbitda a with
  | Except.error e => Except.error e
  | Except.ok actualE =>
    match computeEbitda b with
    | Except.error e => Except.error e
    | Except.ok budgetE => Except.ok (ebitdaVsBudgetText month entity actualE budgetE, ())

/-! ## Cash runway (src/agent/tools.py, `get_cash_runway`, lines 246-314) -/

/-- Net burn of one month group: COGS + Opex − Revenue over the group. -/
def netBurnOfMonth (df : List UsdRow) (m : String) : Q :=
  sumUsd (((df.filter fun u => u.month == some m).filter
      fun u => u.account_category == some "COGS")) +
  sumUsd (((df.filter fun u => u.month == some m).filter isOpexCat)) -
  sumUsd (((df.filter fun u => u.month == some m).filter
      fun u => u.account_category == some "Revenue"))

/-- The sorted month keys of `df_usd.groupby("month")`. -/
def entityMonths (df : List UsdRow) : List String :=
  sortedDedup (df.filterMap fun u => u.month)

/-- `sort_values("month").tail(3)`: the last (largest) at most three entries
of an already sorted list. -/
def lastThree (l : List String) : List String := l.drop (l.length - 3)

/-- `cash.dropna(subset=["month", "entity", "cash_usd"])` row predicate. -/
def cashRowComplete (cRow : CashRow) : Bool :=
  cRow.month.isSome && cRow.entity.isSome && cRow.cash_usd.isSome

/-- `sort_values("month").iloc[-1]`: a record carrying the largest month,
the last such record in input order. -/
def latestOf (l : List CashRow) : Option CashRow :=
  l.foldl (fun acc cRow =>
    match acc with
    | none => some cRow
    | some b => if b.month.getD "" ≤ cRow.month.getD "" then some cRow else some b) none

/-- Runway rendering: `None` models float infinity, printed "inf" by
`f"{...:.1f}"`. -/
def fmtRunway : Option Q → String
  | none => "inf"
  | some q => fmt1f q

/-- Text template of `get_cash_runway`. -/
def cashRunwayText (entity : String) (runway : Option Q) (latest_cash avg_burn : Q) : String :=
  "Cash Runway for " ++ entity ++ ": " ++ fmtRunway runway ++
    " months (latest cash $" ++ fmtMoney latest_cash ++ ", avg burn $" ++
    fmtMoney avg_burn ++ "/month)"

/-- Embeds `get_cash_runway`: entity-filter the converted actuals; the
`is_opex` mask raises `ValueError` on a null category in the slice; an empty
slice gives an empty `groupby`, so the later `monthly["COGS"]` access raises
`KeyError`; otherwise average net burn over the last at most three months,
pick the latest cash record (entity first, any-entity fallback, else 0), and
report `latest / avg` when the average burn is positive, infinity
otherwise. -/
def get_cash_runway (cash : List CashRow) (actuals : List Row) (fx : List FxRow)
    (entity : String) : Except String (String × Fig) :=
  let df := (convert_to_usd actuals fx).filter fun u => u.entity == some entity
  if df.any fun u => u.account_category.isNone then
    Except.error "ValueError: cannot mask with NA"
  else
    match entityMonths df with
    | [] => Except.error "KeyError: COGS"
    | m0 :: ms =>
      let burns := (lastThree (m0 :: ms)).map (netBurnOfMonth df)
      let avg_burn := Q.qsum burns / Q.ofInt burns.length
      let cash_clean := cash.filter cashRowComplete
      let latest_cash : Q :=
        match latestOf (cash_clean.filter fun cRow => cRow.entity == some entity) with
        | some cRow => cRow.cash_usd.getD 0
        | none =>
          match latestOf cash_clean with
          | some cRow => cRow.cash_usd.getD 0
          | none => 0
      let runway : Option Q := if 0 < avg_burn then some (latest_cash / avg_burn) else none
      Except.ok (cashRunwayText entity runway latest_cash avg_burn, ())

/-- C8: when neither table holds a convertible Revenue row for the requested
month and entity, Revenue vs Budget reports Actual $0 vs Budget $0 (the zero
sum formats as "0") and cannot raise. -/
theorem C8_revenue_zero_rows (month entity : String) (actuals budget : List Row)
    (fx : List FxRow)
    (hA : (convert_to_usd actuals fx).filter (revMatch month entity) = [])
    (hB : (convert_to_usd budget fx).filter (revMatch month entity) = []) :
    (get_revenue_vs_budget month entity actuals budget fx).1 =
      revVsBudgetText month entity 0 0 ∧ fmtMoney 0 = "0" := by
  constructor
  · unfold get_revenue_vs_budget
    rw [hA, hB]
    rfl
  · rfl

/-- Witness for C8 at concrete empty tables. -/
theorem C8_revenue_zero_rows_witness :
    (get_revenue_vs_budget "2024-06" "ParentCo" [] [] []).1 =
      revVsBudgetText "2024-06" "ParentCo" 0 0 ∧ fmtMoney 0 = "0" :=
  C8_revenue_zero_rows "2024-06" "ParentCo" [] [] [] rfl rfl

/-- C5 is a code bug: spec section 7 requires that no core component raise
an unhandled failure on well-typed tables, and that trend metrics tolerate a
slice with no Revenue or no COGS rows; but on an actuals table whose only
row is a COGS row (with a matching FX rate), both trend metrics raise
`KeyError: 'Revenue'` when reading the absent pivot column. -/
theorem C5_trend_keyerror_bug :
    get_gross_margin_trend1
        [⟨some "2024-01", some "ParentCo", some "COGS", some 100, some "USD"⟩]
        [⟨some "2024-01", some "USD", some 1⟩] "ParentCo" =
      Except.error "KeyError: Revenue" ∧
    get_ebitda_trend
        [⟨some "2024-01", some "ParentCo", some "COGS", some 100, some "USD"⟩]
        [⟨some "2024-01", some "USD", some 1⟩] "ParentCo" =
      Except.error "KeyError: Revenue" := ⟨rfl, rfl⟩

/-! ## C4: cash runway against the spec formula -/

/-- Spec-side average burn: average of (COGS + Opex − Revenue) over the most
recent at most three months present in the slice, months ordered by their
"YYYY-MM" string. -/
def avgBurnSpec (df : List UsdRow) : Q :=
  Q.qsum ((lastThree (entityMonths df)).map (netBurnOfMonth df)) /
    Q.ofInt ((lastThree (entityMonths df)).map (netBurnOfMonth df)).length

/-- Spec-side latest cash: the entity's latest record, else the latest
record across all entities, else 0. -/
def latestCashSpec (cash : List CashRow) (entity : String) : Q :=
  match latestOf ((cash.filter cashRowComplete).filter
      fun cRow => cRow.entity == some entity) with
  | some cRow => cRow.cash_usd.getD 0
  | none =>
    match latestOf (cash.filter cashRowComplete) with
    | some cRow => cRow.cash_usd.getD 0
    | none => 0

/-- Spec-side runway: infinite (`none`) when the average burn is ≤ 0, else
latest cash divided by the average burn. -/
def runwaySpec (cash : List CashRow) (df : List UsdRow) (entity : String) : Option Q :=
  if avgBurnSpec df ≤ 0 then none else some (latestCashSpec cash entity / avgBurnSpec df)

/-- Trichotomy bridge between the strict and non-strict `Q` orders. -/
theorem Q.not_lt_iff {a b : Q} : ¬(a < b) ↔ b ≤ a := by
  constructor
  · intro h
    exact Int.not_lt.mp h
  · intro h
    exact Int.not_lt.mpr h

/-- Trichotomy bridge, the other direction. -/
theorem Q.not_le_iff {a b : Q} : ¬(a ≤ b) ↔ b < a := by
  constructor
  · intro h
    exact Int.not_le.mp h
  · intro h
    exact Int.not_le.mpr h

/-- C4 (amended): provided the entity's normalized slice has at least one
month and no null account_category, the reported runway is the spec formula:
latest cash over the average net burn of the most recent at most three
months, infinite when that average is not positive, with the spec's cash
fallbacks.  (On an empty slice the code instead raises `KeyError`, and on a
null category it raises `ValueError`; see the counterexample.) -/
theorem C4_cash_runway_amended (cash : List CashRow) (actuals : List Row)
    (fx : List FxRow) (entity : String)
    (hcat : ((convert_to_usd actuals fx).filter fun u => u.entity == some entity).any
      (fun u => u.account_category.isNone) = false)
    (hm : entityMonths ((convert_to_usd actuals fx).filter
      fun u => u.entity == some entity) ≠ []) :
    get_cash_runway cash actuals fx entity =
      Except.ok (cashRunwayText entity
        (runwaySpec cash ((convert_to_usd actuals fx).filter
          fun u => u.entity == some entity) entity)
        (latestCashSpec cash entity)
        (avgBurnSpec ((convert_to_usd actuals fx).filter
          fun u => u.entity == some entity)), ()) := by
  unfold get_cash_runway
  simp only [hcat, Bool.false_eq_true, if_false]
  cases hml : entityMonths ((convert_to_usd actuals fx).filter
      fun u => u.entity == some entity) with
  | nil => exact absurd hml hm
  | cons m0 ms =>
    dsimp only
    unfold runwaySpec avgBurnSpec latestCashSpec
    rw [hml]
    by_cases hpos : 0 < Q.qsum ((lastThree (m0 :: ms)).map (netBurnOfMonth
        ((convert_to_usd actuals fx).filter fun u => u.entity == some entity))) /
      Q.ofInt (((lastThree (m0 :: ms)).map (netBurnOfMonth
        ((convert_to_usd actuals fx).filter fun u => u.entity == some entity))).length)
    · rw [if_pos hpos, if_neg (Q.not_le_iff.mpr hpos)]
    · rw [if_neg hpos, if_pos (Q.not_lt_iff.mp hpos)]

/-- Witness for C4 (amended): one COGS month burns 300 per month against a
cash balance of 100, giving a 0.3-month runway. -/
theorem C4_cash_runway_amended_witness :
    get_cash_runway [⟨some "2024-01", some "ParentCo", some 100⟩]
        [⟨some "2024-01", some "ParentCo", some "COGS", some 300, some "USD"⟩]
        [⟨some "2024-01", some "USD", some 1⟩] "ParentCo" =
      Except.ok (cashRunwayText "ParentCo"
        (runwaySpec [⟨some "2024-01", some "ParentCo", some 100⟩]
          ((convert_to_usd
            [⟨some "2024-01", some "ParentCo", some "COGS", some 300, some "USD"⟩]
            [⟨some "2024-01", some "USD", some 1⟩]).filter
              fun u => u.entity == some "ParentCo") "ParentCo")
        (latestCashSpec [⟨some "2024-01", some "ParentCo", some 100⟩] "ParentCo")
        (avgBurnSpec ((convert_to_usd
          [⟨some "2024-01", some "ParentCo", some "COGS", some 300, some "USD"⟩]
          [⟨some "2024-01", some "USD", some 1⟩]).filter
            fun u => u.entity == some "ParentCo")), ()) :=
  C4_cash_runway_amended _ _ _ _ (by rfl) (by decide)

/-- C4 counterexample: the claim quantifies over every actuals table, but on
an empty actuals table (zero months of data, a case the claim's "fewer than
3 months" clause covers) the code raises `KeyError` out of the empty
`groupby` result instead of reporting any runway. -/
theorem C4_cash_runway_counterexample :
    get_cash_runway [⟨some "2024-01", some "ParentCo", some 100⟩] [] [] "ParentCo" =
      Except.error "KeyError: COGS" := rfl

/-! ## Month extraction (src/agent/agent.py, `parse_month_year` lines 21-29
and the regex scan of `run_agent` lines 60-65).

The regex `(January|...|December) \d{4}` with `re.IGNORECASE` finds the
leftmost position where a full month name (case-insensitively) is followed
by a space and four digits; `match.group(0)` (the matched text, original
case) is then re-parsed by `strptime("%B %Y")`, which matches a month name
case-insensitively, a space, and 1-4 digits consuming the whole string, and
fails (returning None here) for year 0; `strftime("%Y-%m")` prints the year
unpadded and the month zero-padded. -/

/-- The twelve full English month names with their numbers, in the
alternation order of the regex (also strptime's name table). -/
def monthTable : List (String × Nat) :=
  [("January", 1), ("February", 2), ("March", 3), ("April", 4), ("May", 5),
   ("June", 6), ("July", 7), ("August", 8), ("September", 9), ("October", 10),
   ("November", 11), ("December", 12)]

/-- Case-insensitive leading-segment test. -/
def startsWithCI (pat s : List Char) : Bool := isPrefixB (lowerSeq pat) (lowerSeq s)

/-- Numeric value of a digit string. -/
def digitsToNat (l : List Char) : Nat :=
  l.foldl (fun acc ch => acc * 10 + (ch.toNat - '0'.toNat)) 0

/-- Zero-padded two-digit month, as `strftime("%m")`. -/
def pad2 (n : Nat) : String := if n < 10 then "0" ++ toString n else toString n

/-- A regex match of the month pattern: which alternative matched, the
original-case matched name characters, and the four digit characters. -/
structure MonthMatch where
  name : String
  num : Nat
  cand : List Char
  ds : List Char
deriving DecidableEq, Repr

/-- Try the month alternatives at the start of `s`: a match needs a
case-insensitive month name followed by a space and four digits. -/
def matchHere1 (s : List Char) : Option MonthMatch :=
  monthTable.findSome? fun nm =>
    if startsWithCI nm.1.data s then
      match s.drop nm.1.data.length with
      | ' ' :: d1 :: d2 :: d3 :: d4 :: _ =>
        if d1.isDigit && d2.isDigit && d3.isDigit && d4.isDigit then
          some ⟨nm.1, nm.2, s.take nm.1.data.length, [d1, d2, d3, d4]⟩
        else none
      | _ => none
    else none

/-- `re.search`: try each position left to right, leftmost match wins. -/
def scanMonth : List Char → Option MonthMatch
  | [] => none
  | ch :: t =>
    match matchHere1 (ch :: t) with
    | some m => some m
    | none => scanMonth t

/-- Embeds `parse_month_year`: `strptime(text, "%B %Y")` then
`strftime("%Y-%m")`; `None` when the text does not parse exactly (including
year 0, which `datetime` rejects). -/
def parse_month_year (text : String) : Option String :=
  monthTable.findSome? fun nm =>
    if startsWithCI nm.1.data text.data then
      match text.data.drop nm.1.data.length with
      | ' ' :: rest =>
        if rest.all Char.isDigit && decide (1 ≤ rest.length) && decide (rest.length ≤ 4) then
          if digitsToNat rest = 0 then none
          else some (toString (digitsToNat rest) ++ "-" ++ pad2 nm.2)
        else none
      | _ => none
    else none

/-- Embeds the month extraction of `run_agent`: scan for the regex match;
if found, feed `match.group(0)` to `parse_month_year`. -/
def extract_month (question : String) : Option String :=
  match scanMonth question.data with
  | some m => parse_month_year (String.mk (m.cand ++ ' ' :: m.ds))
  | none => none

/-- Spec-side extraction (spec section 4.4): the first index at which a full
month name (case-insensitive) is followed by a space and a 4-digit year,
converted directly to "YYYY-MM"; no month for year 0. -/
def extract_month_spec (question : String) : Option String :=
  match (List.range question.data.length).findSome?
      (fun i => matchHere1 (question.data.drop i)) with
  | some m =>
    if digitsToNat m.ds = 0 then none
    else some (toString (digitsToNat m.ds) ++ "-" ++ pad2 m.num)
  | none => none

/-! ### Supporting lemmas for C6 -/

theorem lowerSeq_append (a b : List Char) :
    lowerSeq (a ++ b) = lowerSeq a ++ lowerSeq b := List.map_append _ _ _

theorem isPrefixB_append_self : ∀ (l r : List Char), isPrefixB l (l ++ r) = true := by
  intro l r
  induction l with
  | nil => rfl
  | cons c cs ih => simp [isPrefixB, ih]

theorem isPrefixB_le : ∀ {p s : List Char}, isPrefixB p s = true → p.length ≤ s.length := by
  intro p
  induction p with
  | nil => intro s _; simp
  | cons c cs ih =>
    intro s h
    cases s with
    | nil => simp [isPrefixB] at h
    | cons c0 s0 =>
      simp only [isPrefixB, Bool.and_eq_true] at h
      simpa using ih h.2

theorem isPrefixB_take : ∀ {p s : List Char}, isPrefixB p s = true → s.take p.length = p := by
  intro p
  induction p with
  | nil => intro s _; rfl
  | cons c cs ih =>
    intro s h
    cases s with
    | nil => simp [isPrefixB] at h
    | cons c0 s0 =>
      simp only [isPrefixB, Bool.and_eq_true, beq_iff_eq] at h
      simp [List.take_succ_cons, ih h.2, h.1]

theorem isPrefixB_trans_le : ∀ {t p q : List Char}, isPrefixB p t = true →
    isPrefixB q t = true → p.length ≤ q.length → isPrefixB p q = true := by
  intro t
  induction t with
  | nil =>
    intro p q hp _ _
    cases p with
    | nil => rfl
    | cons a as => simp [isPrefixB] at hp
  | cons c ts ih =>
    intro p q hp hq hle
    cases p with
    | nil => rfl
    | cons a as =>
      cases q with
      | nil => simp at hle
      | cons b bs =>
        simp only [isPrefixB, Bool.and_eq_true, beq_iff_eq] at hp hq ⊢
        refine ⟨hp.1.trans hq.1.symm, ih hp.2 hq.2 (by simpa using hle)⟩

/-- The month names are pairwise distinct. -/
theorem monthNames_nodup : (monthTable.map Prod.fst).Nodup := by decide

/-- No lowered month name is a leading segment of another: this is what
makes both the regex alternation and the strptime name matching
unambiguous. -/
theorem monthNames_not_pre : monthTable.Pairwise (fun a b =>
    isPrefixB (lowerSeq a.1.data) (lowerSeq b.1.data) = false ∧
    isPrefixB (lowerSeq b.1.data) (lowerSeq a.1.data) = false) := by decide

/-- `findSome?` over a list where every element other than `e` yields
`none` computes `f e`. -/
theorem findSome?_unique {α β : Type} (f : α → Option β) (e : α) :
    ∀ (l : List α), e ∈ l → (∀ x ∈ l, x ≠ e → f x = none) →
      l.findSome? f = f e := by
  intro l
  induction l with
  | nil => intro h; cases h
  | cons a t ih =>
    intro he hothers
    by_cases hae : a = e
    · subst hae
      cases hfa : f a with
      | some b => simp [List.findSome?_cons, hfa]
      | none =>
        rw [List.findSome?_cons, hfa]
        show List.findSome? f t = none
        apply List.findSome?_eq_none_iff.mpr
        intro x hx
        by_cases hxa : x = a
        · rw [hxa, hfa]
        · exact hothers x (List.mem_cons_of_mem _ hx) hxa
    · have hfa : f a = none := hothers a (List.mem_cons_self a t) hae
      rw [List.findSome?_cons, hfa]
      have he' : e ∈ t := by
        rcases List.mem_cons.mp he with h | h
        · exact absurd h.symm hae
        · exact h
      exact ih he' (fun x hx hxe => hothers x (List.mem_cons_of_mem _ hx) hxe)

/-- What a successful `matchHere1` guarantees about the produced match. -/
theorem matchHere1_inv {s : List Char} {m : MonthMatch} (h : matchHere1 s = some m) :
    (m.name, m.num) ∈ monthTable ∧
    lowerSeq m.cand = lowerSeq m.name.data ∧
    m.cand.length = m.name.data.length ∧
    m.ds.length = 4 ∧
    m.ds.all Char.isDigit = true := by
  obtain ⟨nm, hmem, hf⟩ := List.exists_of_findSome?_eq_some h
  split at hf
  case isFalse => exact absurd hf (by simp)
  case isTrue hsw =>
  split at hf
  case h_2 => exact absurd hf (by simp)
  case h_1 d1 d2 d3 d4 tail heq =>
  split at hf
  case isFalse => exact absurd hf (by simp)
  case isTrue hdig =>
  have hle : nm.1.data.length ≤ s.length := by
    have := isPrefixB_le hsw
    simpa [lowerSeq] using this
  have hm := Option.some.inj hf
  subst hm
  obtain ⟨⟨⟨g1, g2⟩, g3⟩, g4⟩ : ((d1.isDigit = true ∧ d2.isDigit = true) ∧
      d3.isDigit = true) ∧ d4.isDigit = true := by
    simpa [Bool.and_eq_true] using hdig
  refine ⟨by simpa using hmem, ?_, ?_, rfl, by simp [g1, g2, g3, g4]⟩
  · have h1 : (lowerSeq s).take (lowerSeq nm.1.data).length = lowerSeq nm.1.data :=
      isPrefixB_take hsw
    have h2 : (lowerSeq nm.1.data).length = nm.1.data.length := by
      simp [lowerSeq]
    rw [h2] at h1
    calc lowerSeq (s.take nm.1.data.length)
        = (lowerSeq s).take nm.1.data.length := by simp [lowerSeq, List.map_take]
      _ = lowerSeq nm.1.data := h1
  · simp only [List.length_take]
    exact Nat.min_eq_left hle

/-- What a successful scan guarantees (the scan succeeds exactly when some
position matches). -/
theorem scanMonth_inv : ∀ {s : List Char} {m : MonthMatch}, scanMonth s = some m →
    (m.name, m.num) ∈ monthTable ∧
    lowerSeq m.cand = lowerSeq m.name.data ∧
    m.cand.length = m.name.data.length ∧
    m.ds.length = 4 ∧
    m.ds.all Char.isDigit = true := by
  intro s
  induction s with
  | nil => intro m h; exact absurd h (by simp [scanMonth])
  | cons ch t ih =>
    intro m h
    rw [scanMonth] at h
    cases hm : matchHere1 (ch :: t) with
    | some m0 =>
      rw [hm] at h
      have : m0 = m := Option.some.inj h
      subst this
      exact matchHere1_inv hm
    | none =>
      rw [hm] at h
      exact ih h

/-- The left-to-right scan computes the leftmost-position match. -/
theorem scanMonth_eq_range : ∀ s : List Char,
    scanMonth s = (List.range s.length).findSome? (fun i => matchHere1 (s.drop i)) := by
  intro s
  induction s with
  | nil => rfl
  | cons ch t ih =>
    rw [scanMonth, List.length_cons, List.range_succ_eq_map, List.findSome?_cons]
    cases hm : matchHere1 (ch :: t) with
    | some m => simp [hm]
    | none =>
      simp only [List.drop_zero, hm]
      rw [List.findSome?_map, ih]
      congr 1

/-- Re-parsing the matched text with `strptime("%B %Y")` is the direct
conversion: the month alternative is recovered unambiguously, the four
digits parse back, and only year 0 is rejected. -/
theorem parse_group0 (nameS : String) (num : Nat) (cand ds : List Char)
    (hmem : (nameS, num) ∈ monthTable)
    (hcand : lowerSeq cand = lowerSeq nameS.data)
    (hlen : cand.length = nameS.data.length)
    (hds4 : ds.length = 4)
    (hdig : ds.all Char.isDigit = true) :
    parse_month_year (String.mk (cand ++ ' ' :: ds)) =
      (if digitsToNat ds = 0 then none
       else some (toString (digitsToNat ds) ++ "-" ++ pad2 num)) := by
  have hdata : (String.mk (cand ++ ' ' :: ds)).data = cand ++ ' ' :: ds := rfl
  have hswOK : startsWithCI nameS.data (cand ++ ' ' :: ds) = true := by
    unfold startsWithCI
    rw [lowerSeq_append, hcand]
    exact isPrefixB_append_self _ _
  unfold parse_month_year
  rw [findSome?_unique _ (nameS, num) _ hmem ?others]
  case others =>
    intro x hx hne
    have hswF : startsWithCI x.1.data (cand ++ ' ' :: ds) = false := by
      by_contra hc
      have hc' : startsWithCI x.1.data (cand ++ ' ' :: ds) = true := by
        revert hc; cases startsWithCI x.1.data (cand ++ ' ' :: ds) <;> simp
      have hname : x.1 ≠ nameS := by
        intro heq
        exact hne (List.inj_on_of_nodup_map monthNames_nodup hx hmem
          (by simpa using heq))
      have hsym : Symmetric (fun a b : String × Nat =>
          isPrefixB (lowerSeq a.1.data) (lowerSeq b.1.data) = false ∧
          isPrefixB (lowerSeq b.1.data) (lowerSeq a.1.data) = false) :=
        fun a b hab => ⟨hab.2, hab.1⟩
      have hpair := monthNames_not_pre.forall hsym hx hmem hne
      have h1 : isPrefixB (lowerSeq x.1.data) (lowerSeq (cand ++ ' ' :: ds)) = true := hc'
      have h2 : isPrefixB (lowerSeq nameS.data) (lowerSeq (cand ++ ' ' :: ds)) = true := hswOK
      rcases Nat.le_total (lowerSeq x.1.data).length (lowerSeq nameS.data).length with hle | hle
      · exact absurd (isPrefixB_trans_le h1 h2 hle) (by simp [hpair.1])
      · exact absurd (isPrefixB_trans_le h2 h1 hle) (by simp [hpair.2])
    rw [hdata, hswF]
    simp
  rw [hdata, hswOK]
  simp only [if_true]
  have hdrop : (cand ++ ' ' :: ds).drop nameS.data.length = ' ' :: ds := by
    rw [← hlen]
    exact List.drop_left cand (' ' :: ds)
  rw [hdrop]
  have hcondOK : (ds.all Char.isDigit && decide (1 ≤ ds.length) &&
      decide (ds.length ≤ 4)) = true := by
    rw [hdig, hds4]
    rfl
  show (if (ds.all Char.isDigit && decide (1 ≤ ds.length) && decide (ds.length ≤ 4)) = true
      then (if digitsToNat ds = 0 then none
            else some (toString (digitsToNat ds) ++ "-" ++ pad2 num))
      else none) =
    (if digitsToNat ds = 0 then none
     else some (toString (digitsToNat ds) ++ "-" ++ pad2 num))
  rw [hcondOK]
  simp only [if_true]

/-- C6: the month extraction of the orchestrator — leftmost case-insensitive
occurrence of a full month name, a space and four digits, re-parsed by
`strptime("%B %Y")` — equals the spec-side extraction: leftmost such index,
converted directly to "YYYY-MM", with no month extracted when no position
matches or the year digits are 0000; both sides are total functions, so no
failure is raised. -/
theorem C6_month_extraction_spec_eq (question : String) :
    extract_month question = extract_month_spec question := by
  unfold extract_month extract_month_spec
  rw [← scanMonth_eq_range]
  cases hs : scanMonth question.data with
  | none => rfl
  | some m =>
    obtain ⟨hmem, hcand, hlen, hds4, hdig⟩ := scanMonth_inv hs
    exact parse_group0 m.name m.num m.cand m.ds hmem hcand hlen hds4 hdig

/-! ## Query orchestrator (src/agent/agent.py, `run_agent`, lines 48-95) -/

/-- Embeds `run_agent`: classify, short-circuit on unknown intent, extract
the month, then dispatch with the intent-specific guards; exceptions of the
metric functions propagate. -/
def run_agent (question : String) (actuals budget : List Row) (fx : List FxRow)
    (cash : Option (List CashRow)) (default_entity : String) :
    Except String (String × Option Fig) :=
  let intent := classify_intent question
  if intent = "unknown" then
    Except.ok ("Sorry, I could not understand the question.", none)
  else
    let month := extract_month question
    if intent = "revenue_vs_budget" then
      match month with
      | none => Except.ok ("Please specify the month (e.g., June 2024) for Revenue vs Budget.", none)
      | some m =>
        let r := get_revenue_vs_budget m default_entity actuals budget fx
        Except.ok (r.1, some r.2)
    else if intent = "gross_margin_trend" then
      match get_gross_margin_trend1 actuals fx default_entity with
      | Except.error e => Except.error e
      | Except.ok r => Except.ok (r.1, some r.2)
    else if intent = "opex_breakdown" then
      match month with
      | none => Except.ok ("Please specify the month (e.g., June 2024) for Opex breakdown.", none)
      | some m =>
        match get_opex_breakdown1 m default_entity actuals fx with
        | Except.error e => Except.error e
        | Except.ok r => Except.ok (r.1, some r.2)
    else if intent = "ebitda_trend" then
      match get_ebitda_trend actuals fx default_entity with
      | Except.error e => Except.error e
      | Except.ok r => Except.ok (r.1, some r.2)
    else if intent = "ebitda_vs_budget" then
      match month with
      | none => Except.ok ("Please specify the month (e.g., June 2024) for EBITDA vs Budget.", none)
      | some m =>
        match get_ebitda_vs_budget m default_entity actuals budget fx with
        | Except.error e => Except.error e
        | Except.ok r => Except.ok (r.1, some r.2)
    else if intent = "cash_runway" then
      match cash with
      | none => Except.ok ("Cash data not provided.", none)
      | some ctab =>
        match get_cash_runway ctab actuals fx default_entity with
        | Except.error e => Except.error e
        | Except.ok r => Except.ok (r.1, some r.2)
    else Except.ok ("Intent not implemented.", none)

/-- C3: the end-to-end scenario of spec section 8: "Revenue vs Budget for
June 2024" against one 1000 EUR Revenue actual (rate 1.1) and one 900 USD
Revenue budget row (USD rate 1) for ParentCo in 2024-06 produces exactly
the text "Revenue in 2024-06 for ParentCo: Actual $1,100 vs Budget $900"
together with a chart. -/
theorem C3_revenue_vs_budget_end_to_end :
    run_agent "Revenue vs Budget for June 2024"
      [⟨some "2024-06", some "ParentCo", some "Revenue", some 1000, some "EUR"⟩]
      [⟨some "2024-06", some "ParentCo", some "Revenue", some 900, some "USD"⟩]
      [⟨some "2024-06", some "EUR", some ⟨11, 10⟩⟩, ⟨some "2024-06", some "USD", some 1⟩]
      none "ParentCo" =
    Except.ok ("Revenue in 2024-06 for ParentCo: Actual $1,100 vs Budget $900", some ()) := by
  rfl

/-- C7: user-input problems never raise: unknown intent, a missing month
for the month-requiring intents, and a missing cash table each return the
fixed plain-text guidance message with no chart. -/
theorem C7_user_input_guidance (question : String) (actuals budget : List Row)
    (fx : List FxRow) (cash : Option (List CashRow)) (entity : String) :
    (classify_intent question = "unknown" →
      run_agent question actuals budget fx cash entity =
        Except.ok ("Sorry, I could not understand the question.", none)) ∧
    (classify_intent question = "revenue_vs_budget" → extract_month question = none →
      run_agent question actuals budget fx cash entity =
        Except.ok ("Please specify the month (e.g., June 2024) for Revenue vs Budget.", none)) ∧
    (classify_intent question = "opex_breakdown" → extract_month question = none →
      run_agent question actuals budget fx cash entity =
        Except.ok ("Please specify the month (e.g., June 2024) for Opex breakdown.", none)) ∧
    (classify_intent question = "ebitda_vs_budget" → extract_month question = none →
      run_agent question actuals budget fx cash entity =
        Except.ok ("Please specify the month (e.g., June 2024) for EBITDA vs Budget.", none)) ∧
    (classify_intent question = "cash_runway" → cash = none →
      run_agent question actuals budget fx cash entity =
        Except.ok ("Cash data not provided.", none)) := by
  refine ⟨?_, ?_, ?_, ?_, ?_⟩
  · intro h
    simp [run_agent, h]
  · intro h hm
    simp [run_agent, h, hm]
  · intro h hm
    simp [run_agent, h, hm]
  · intro h hm
    simp [run_agent, h, hm]
  · intro h hc
    simp [run_agent, h, hc]

/-- Witness for C7: one concrete question per guarded path. -/
theorem C7_user_input_guidance_witness :
    run_agent "How are we doing?" [] [] [] none "ParentCo" =
      Except.ok ("Sorry, I could not understand the question.", none) ∧
    run_agent "revenue vs budget" [] [] [] none "ParentCo" =
      Except.ok ("Please specify the month (e.g., June 2024) for Revenue vs Budget.", none) ∧
    run_agent "opex breakdown please" [] [] [] none "ParentCo" =
      Except.ok ("Please specify the month (e.g., June 2024) for Opex breakdown.", none) ∧
    run_agent "ebitda vs budget" [] [] [] none "ParentCo" =
      Except.ok ("Please specify the month (e.g., June 2024) for EBITDA vs Budget.", none) ∧
    run_agent "What is our cash runway?" [] [] [] none "ParentCo" =
      Except.ok ("Cash data not provided.", none) :=
  ⟨(C7_user_input_guidance "How are we doing?" [] [] [] none "ParentCo").1 rfl,
   (C7_user_input_guidance "revenue vs budget" [] [] [] none "ParentCo").2.1 rfl rfl,
   (C7_user_input_guidance "opex breakdown please" [] [] [] none "ParentCo").2.2.1 rfl rfl,
   (C7_user_input_guidance "ebitda vs budget" [] [] [] none "ParentCo").2.2.2.1 rfl rfl,
   (C7_user_input_guidance "What is our cash runway?" [] [] [] none "ParentCo").2.2.2.2 rfl rfl⟩

/-- C10: on the unknown-intent path the result is the fixed message with no
chart and is independent of every table argument and the default entity:
the tables are never read. -/
theorem C10_unknown_intent_noninterference (question : String)
    (actuals budget : List Row) (fx : List FxRow) (cash : Option (List CashRow))
    (entity : String) (actuals' budget' : List Row) (fx' : List FxRow)
    (cash' : Option (List CashRow)) (entity' : String)
    (h : classify_intent question = "unknown") :
    run_agent question actuals budget fx cash entity =
      Except.ok ("Sorry, I could not understand the question.", none) ∧
    run_agent question actuals budget fx cash entity =
      run_agent question actuals' budget' fx' cash' entity' := by
  have h1 : ∀ (a0 b0 : List Row) (f0 : List FxRow) (c0 : Option (List CashRow)) (e0 : String),
      run_agent question a0 b0 f0 c0 e0 =
        Except.ok ("Sorry, I could not understand the question.", none) := by
    intro a0 b0 f0 c0 e0
    simp [run_agent, h]
  exact ⟨h1 actuals budget fx cash entity,
    (h1 actuals budget fx cash entity).trans (h1 actuals' budget' fx' cash' entity').symm⟩

/-- Witness for C10: "How are we doing?" gives the same fixed answer on two
entirely different table assignments. -/
theorem C10_unknown_intent_noninterference_witness :
    run_agent "How are we doing?"
        [⟨some "2024-06", some "ParentCo", some "Revenue", some 1000, some "EUR"⟩]
        [] [] none "ParentCo" =
      Except.ok ("Sorry, I could not understand the question.", none) ∧
    run_agent "How are we doing?"
        [⟨some "2024-06", some "ParentCo", some "Revenue", some 1000, some "EUR"⟩]
        [] [] none "ParentCo" =
      run_agent "How are we doing?" [] []
        [⟨some "2024-06", some "USD", some 1⟩]
        (some [⟨some "2024-06", some "ParentCo", some 77⟩]) "OtherCo" :=
  C10_unknown_intent_noninterference "How are we doing?"
    [⟨some "2024-06", some "ParentCo", some "Revenue", some 1000, some "EUR"⟩]
    [] [] none "ParentCo" [] [] [⟨some "2024-06", some "USD", some 1⟩]
    (some [⟨some "2024-06", some "ParentCo", some 77⟩]) "OtherCo" rfl

/-! ## C9: frame effect — no mutation of the caller's tables.

The pandas calls of the core either return a fresh frame (`dropna`,
`drop_duplicates`, `merge`, boolean-mask indexing, `pivot_table`,
`reset_index`, `groupby` aggregation, `sort_values`, `.copy()`) or assign a
column in place (`frame[col] = ...`).  Each function's behaviour on frame
objects is recorded as a trace of operations on object identifiers: the
caller's tables carry identifiers below `base`, every frame allocated inside
a call receives a fresh identifier `base, base+1, ...` in program order, and
every in-place column assignment targets the identifier of the frame it is
applied to.  The claim holds because every write in every trace targets a
fresh identifier. -/

/-- One step on frame objects: allocation of a fresh frame, or an in-place
column assignment to an existing frame. -/
inductive TableOp where
  | alloc (i : Nat)
  | write (i : Nat)
deriving DecidableEq, Repr

/-- The object identifier an operation touches. -/
def TableOp.tid : TableOp → Nat
  | alloc i => i
  | write i => i

/-- Trace of `convert_to_usd` (tools.py lines 8-35): four fresh frames
(clean_df, clean_fx twice, merged twice counts as two: merge result and the
dropna result) and one column assignment to the last fresh frame. -/
def convertOps (base : Nat) : List TableOp :=
  [TableOp.alloc base,        -- clean_df = df.dropna(...)
   TableOp.alloc (base + 1),  -- clean_fx = fx.dropna(...)
   TableOp.alloc (base + 2),  -- clean_fx = clean_fx.drop_duplicates(...)
   TableOp.alloc (base + 3),  -- merged = clean_df.merge(clean_fx, ...)
   TableOp.alloc (base + 4),  -- merged = merged.dropna(subset=["rate_to_usd"])
   TableOp.write (base + 4)]  -- merged["amount_usd"] = merged["amount"] * ...

/-- Trace of `get_revenue_vs_budget`: two conversions and the two masked
Revenue slices (the sums are scalars). -/
def revenueVsBudgetOps (base : Nat) : List TableOp :=
  convertOps base ++ convertOps (base + 5) ++
    [TableOp.alloc (base + 10),  -- actual_rev mask slice
     TableOp.alloc (base + 11)]  -- budget_rev mask slice

/-- Trace of `get_gross_margin_trend1`: conversion, entity slice, pivot
(with reset_index), and the GrossMarginPct column assignment to the fresh
pivot frame. -/
def grossMarginOps (base : Nat) : List TableOp :=
  convertOps base ++
    [TableOp.alloc (base + 5),  -- df_usd = df_usd[df_usd["entity"] == entity]
     TableOp.alloc (base + 6),  -- pivot = df_usd.pivot_table(...).reset_index()
     TableOp.write (base + 6)]  -- pivot["GrossMarginPct"] = ...

/-- Trace of `get_opex_breakdown1`: conversion, the masked Opex slice, and
the groupby aggregation result. -/
def opexOps (base : Nat) : List TableOp :=
  convertOps base ++
    [TableOp.alloc (base + 5),  -- opex_df = df_usd[...mask...]
     TableOp.alloc (base + 6)]  -- opex_summary = opex_df.groupby(...).sum()

/-- Trace of `get_ebitda_trend`: conversion, entity slice, pivot, and the
OpexTotal and EBITDA column assignments to the fresh pivot frame. -/
def ebitdaTrendOps (base : Nat) : List TableOp :=
  convertOps base ++
    [TableOp.alloc (base + 5),  -- df_usd = df_usd[df_usd["entity"] == entity]
     TableOp.alloc (base + 6),  -- pivot = df_usd.pivot_table(...).reset_index()
     TableOp.write (base + 6),  -- pivot["OpexTotal"] = ...
     TableOp.write (base + 6)]  -- pivot["EBITDA"] = ...

/-- Trace of `get_ebitda_vs_budget`: two conversions, the two month/entity
slices, and the three masked slices of `compute_ebitda` on each. -/
def ebitdaVsBudgetOps (base : Nat) : List TableOp :=
  convertOps base ++ convertOps (base + 5) ++
    [TableOp.alloc (base + 10),  -- a = actuals_usd[...]
     TableOp.alloc (base + 11),  -- b = budget_usd[...]
     TableOp.alloc (base + 12),  -- revenue slice of a
     TableOp.alloc (base + 13),  -- cogs slice of a
     TableOp.alloc (base + 14),  -- opex slice of a
     TableOp.alloc (base + 15),  -- revenue slice of b
     TableOp.alloc (base + 16),  -- cogs slice of b
     TableOp.alloc (base + 17)]  -- opex slice of b

/-- Trace of `get_cash_runway`: conversion, entity slice (written in place
with is_opex), monthly groupby result (written in place with NetBurn), the
last3 slice, the cleaned cash copy, and the two sorted cash frames. -/
def cashRunwayOps (base : Nat) : List TableOp :=
  convertOps base ++
    [TableOp.alloc (base + 5),   -- df_usd = df_usd[df_usd["entity"] == entity]
     TableOp.write (base + 5),   -- df_usd["is_opex"] = ...
     TableOp.alloc (base + 6),   -- monthly = df_usd.groupby(...).apply(...).reset_index()
     TableOp.write (base + 6),   -- monthly["NetBurn"] = ...
     TableOp.alloc (base + 7),   -- last3 = monthly.sort_values("month").tail(3)
     TableOp.alloc (base + 8),   -- cash_clean = cash.dropna(...).copy()
     TableOp.alloc (base + 9),   -- entity_cash = cash_clean[...].sort_values("month")
     TableOp.alloc (base + 10)]  -- overall_latest = cash_clean.sort_values("month")

/-- Trace of a `run_agent` call, mirroring its dispatch: guard paths touch
no frame at all. -/
def runAgentOps (question : String) (hasCash : Bool) (base : Nat) : List TableOp :=
  match classify_intent question with
  | "revenue_vs_budget" =>
    if (extract_month question).isSome then revenueVsBudgetOps base else []
  | "gross_margin_trend" => grossMarginOps base
  | "opex_breakdown" =>
    if (extract_month question).isSome then opexOps base else []
  | "ebitda_trend" => ebitdaTrendOps base
  | "ebitda_vs_budget" =>
    if (extract_month question).isSome then ebitdaVsBudgetOps base else []
  | "cash_runway" => if hasCash then cashRunwayOps base else []
  | _ => []

theorem convertOps_le (base : Nat) : ∀ op ∈ convertOps base, base ≤ op.tid := by
  intro op hop
  simp only [convertOps, List.mem_cons, List.not_mem_nil, or_false] at hop
  rcases hop with rfl | rfl | rfl | rfl | rfl | rfl <;> simp [TableOp.tid]

/-- C9: every operation of every `run_agent` trace — in particular every
in-place column write — touches only identifiers at or above `base`, the
first fresh identifier; consequently any store evolution that modifies only
touched identifiers leaves every caller identifier (below `base`) unchanged:
the caller's actuals, budget, fx and cash tables are not mutated. -/
theorem C9_no_caller_table_mutation (question : String) (hasCash : Bool) (base : Nat) :
    (∀ op ∈ runAgentOps question hasCash base, base ≤ op.tid) ∧
    (∀ {α : Type} (σ σ' : Nat → α),
      (∀ i, i ∉ (runAgentOps question hasCash base).map TableOp.tid → σ' i = σ i) →
      ∀ i, i < base → σ' i = σ i) := by
  have h1 : ∀ op ∈ runAgentOps question hasCash base, base ≤ op.tid := by
    intro op hop
    unfold runAgentOps at hop
    have hconv : ∀ (b : Nat), ∀ op' ∈ convertOps b, b ≤ TableOp.tid op' := convertOps_le
    split at hop
    · split at hop
      · simp only [revenueVsBudgetOps, List.append_assoc, List.mem_append] at hop
        rcases hop with h | h | h
        · exact hconv base op h
        · have := hconv (base + 5) op h
          omega
        · simp only [List.mem_cons, List.not_mem_nil, or_false] at h
          rcases h with rfl | rfl <;> simp [TableOp.tid]
      · simp at hop
    · simp only [grossMarginOps, List.mem_append] at hop
      rcases hop with h | h
      · exact hconv base op h
      · simp only [List.mem_cons, List.not_mem_nil, or_false] at h
        rcases h with rfl | rfl | rfl <;> simp [TableOp.tid]
    · split at hop
      · simp only [opexOps, List.mem_append] at hop
        rcases hop with h | h
        · exact hconv base op h
        · simp only [List.mem_cons, List.not_mem_nil, or_false] at h
          rcases h with rfl | rfl <;> simp [TableOp.tid]
      · simp at hop
    · simp only [ebitdaTrendOps, List.mem_append] at hop
      rcases hop with h | h
      · exact hconv base op h
      · simp only [List.mem_cons, List.not_mem_nil, or_false] at h
        rcases h with rfl | rfl | rfl | rfl <;> simp [TableOp.tid]
    · split at hop
      · simp only [ebitdaVsBudgetOps, List.append_assoc, List.mem_append] at hop
        rcases hop with h | h | h
        · exact hconv base op h
        · have := hconv (base + 5) op h
          omega
        · simp only [List.mem_cons, List.not_mem_nil, or_false] at h
          rcases h with rfl | rfl | rfl | rfl | rfl | rfl | rfl | rfl <;>
            simp [TableOp.tid]
      · simp at hop
    · split at hop
      · simp only [cashRunwayOps, List.mem_append] at hop
        rcases hop with h | h
        · exact hconv base op h
        · simp only [List.mem_cons, List.not_mem_nil, or_false] at h
          rcases h with rfl | rfl | rfl | rfl | rfl | rfl | rfl | rfl <;>
            simp [TableOp.tid]
      · simp at hop
    · simp at hop
  refine ⟨h1, ?_⟩
  intro α σ σ' hdiff i hib
  apply hdiff
  intro hmem
  obtain ⟨op, hop, hid⟩ := List.mem_map.mp hmem
  have := h1 op hop
  omega

/-- Witness for C9: a concrete trace membership and a concrete store pair. -/
theorem C9_no_caller_table_mutation_witness :
    (7 ≤ (TableOp.alloc 7).tid) ∧ ((fun _ : Nat => 0) 3 = (fun _ : Nat => 0) 3) :=
  ⟨(C9_no_caller_table_mutation "show the gross margin trend" true 7).1
      (TableOp.alloc 7) (by decide),
   (C9_no_caller_table_mutation "show the gross margin trend" true 7).2
      (fun _ : Nat => 0) (fun _ : Nat => 0) (fun _ _ => rfl) 3 (by omega)⟩

end CFO
